import Mathlib

/-!
Shallow embedding of the N-body simulator in `src/main.rs`.

The source works on `f64`; we embed the arithmetic over an arbitrary
`LinearOrderedField F` (instantiated at `ℚ` for executable witnesses and at
`ℝ` with `Real.sqrt` where square-root facts are needed).  The square root,
cosine and sine intrinsics of `f64` are passed in as function parameters, so
every definition below is a direct transcription of the Rust code with the
numeric type abstracted.  The random number generator used by
`Universe::new` is modelled by a function `draw : Nat → Draw F` supplying,
for star `i`, the three values the Rust code samples (`dist`, `angle`,
`mass`).
-/

/-- A 3-vector, the embedding of `[f64; 3]`. -/
structure Vec3 (F : Type) where
  x : F
  y : F
  z : F
deriving DecidableEq, Repr

/-- The `Body` struct of the source: stable id, position, velocity, mass. -/
structure Body (F : Type) where
  id : Nat
  pos : Vec3 F
  vel : Vec3 F
  mass : F
deriving DecidableEq, Repr

/-- The `Universe` struct: the body collection plus the two global constants. -/
structure Universe (F : Type) where
  bodies : List (Body F)
  g_const : F
  softening : F
deriving DecidableEq, Repr

/-- The three values `Universe::new` samples from the RNG for one star. -/
structure Draw (F : Type) where
  dist : F
  angle : F
  mass : F

/-- Embedding of `Universe::new`: one central mass of `1_000_000` at the
origin with id 0, then for `i in 1..count` a star at distance `dist i` and
angle `angle i` on the z = 0 plane, with tangential circular-orbit velocity
`sqrt (1_000_000 / dist)` and the drawn mass.  `g_const = 1`,
`softening = 1e-5`. -/
def Universe.new {F : Type} [LinearOrderedField F]
    (sqrt cos sin : F → F) (draw : Nat → Draw F) (count : Nat) : Universe F :=
  let central : Body F :=
    { id := 0, pos := ⟨0, 0, 0⟩, vel := ⟨0, 0, 0⟩, mass := 1000000 }
  let stars : List (Body F) := (List.range' 1 (count - 1)).map (fun i =>
    let d := draw i
    let velocity := sqrt (1000000 / d.dist)
    { id := i,
      pos := ⟨d.dist * cos d.angle, d.dist * sin d.angle, 0⟩,
      vel := ⟨-velocity * sin d.angle, velocity * cos d.angle, 0⟩,
      mass := d.mass })
  { bodies := central :: stars, g_const := 1, softening := 1 / 100000 }

/-- Embedding of `Universe::compute_force`: acceleration on `target` caused
by `source`. -/
def Universe.compute_force {F : Type} [LinearOrderedField F]
    (sqrt : F → F) (u : Universe F) (target source : Body F) : Vec3 F :=
  let dx := source.pos.x - target.pos.x
  let dy := source.pos.y - target.pos.y
  let dz := source.pos.z - target.pos.z
  let dist_sq := dx * dx + dy * dy + dz * dz + u.softening
  let dist := sqrt dist_sq
  let f := (u.g_const * source.mass) / dist_sq
  ⟨f * dx / dist, f * dy / dist, f * dz / dist⟩

/-- The inner accumulation loop of `step_serial`: fold over all bodies in
list order, adding `compute_force` for every `other` with a different id. -/
def Universe.serialAcc {F : Type} [LinearOrderedField F]
    (sqrt : F → F) (u : Universe F) (body : Body F) : Vec3 F :=
  u.bodies.foldl (fun acc other =>
    if body.id ≠ other.id then
      let f := u.compute_force sqrt body other
      ⟨acc.x + f.x, acc.y + f.y, acc.z + f.z⟩
    else acc) ⟨0, 0, 0⟩

/-- The semi-implicit Euler update applied to one body in phase 2 of both
steps: `vel += acc * dt` then `pos += vel * dt` with the updated velocity. -/
def applyUpdate {F : Type} [LinearOrderedField F]
    (dt : F) (body : Body F) (acc : Vec3 F) : Body F :=
  let vx := body.vel.x + acc.x * dt
  let vy := body.vel.y + acc.y * dt
  let vz := body.vel.z + acc.z * dt
  { body with
    vel := ⟨vx, vy, vz⟩,
    pos := ⟨body.pos.x + vx * dt, body.pos.y + vy * dt, body.pos.z + vz * dt⟩ }

/-- Embedding of `Universe::step_serial`: collect all accelerations from the
pre-step state, then update every body. -/
def Universe.step_serial {F : Type} [LinearOrderedField F]
    (sqrt : F → F) (u : Universe F) (dt : F) : Universe F :=
  let updates := u.bodies.map (fun body => u.serialAcc sqrt body)
  { u with bodies := List.zipWith (applyUpdate dt) u.bodies updates }

/-- The inner accumulation loop of `step_parallel`: fold over the enumerated
snapshot of (position, mass) pairs, adding the inlined force-law contribution
for every index different from `body.id`. -/
def Universe.parallelAcc {F : Type} [LinearOrderedField F]
    (sqrt : F → F) (u : Universe F)
    (snapshot : List (Nat × Vec3 F × F)) (body : Body F) : Vec3 F :=
  snapshot.foldl (fun acc entry =>
    let i := entry.1
    let pos := entry.2.1
    let m := entry.2.2
    if body.id ≠ i then
      let dx := pos.x - body.pos.x
      let dy := pos.y - body.pos.y
      let dz := pos.z - body.pos.z
      let dist_sq := dx * dx + dy * dy + dz * dz + u.softening
      let dist := sqrt dist_sq
      let f := (u.g_const * m) / dist_sq
      ⟨acc.x + f * dx / dist, acc.y + f * dy / dist, acc.z + f * dz / dist⟩
    else acc) ⟨0, 0, 0⟩

/-- Embedding of `Universe::step_parallel`: snapshot all positions and
masses, compute each body's acceleration against the enumerated snapshot
(the self term is skipped by comparing `body.id` with the snapshot index),
then update every body.  The rayon parallel iterators of the source are
deterministic maps over the body collection, embedded as `List.map`. -/
def Universe.step_parallel {F : Type} [LinearOrderedField F]
    (sqrt : F → F) (u : Universe F) (dt : F) : Universe F :=
  let positions := u.bodies.map Body.pos
  let masses := u.bodies.map Body.mass
  let snapshot := (positions.zip masses).enum
  let accelerations := u.bodies.map (fun body => u.parallelAcc sqrt snapshot body)
  { u with bodies := List.zipWith (applyUpdate dt) u.bodies accelerations }

/-- The index-id invariant of the spec: the body at index `i` has `id = i`. -/
def idIndexInv {F : Type} (u : Universe F) : Prop :=
  u.bodies.map Body.id = List.range u.bodies.length

instance {F : Type} [DecidableEq F] (u : Universe F) : Decidable (idIndexInv u) := by
  unfold idIndexInv; infer_instance

/-- Spec-side force law, transcribed from §4.2 of the spec: the difference
vector, the softened squared distance `distSq = dx² + dy² + dz² + softening`
(softening added to the squared distance), `dist = sqrt distSq`,
`f = g_const * source.mass / distSq`, and the contribution
`f * (dx, dy, dz) / dist`. -/
def forceLawSpec {F : Type} [LinearOrderedField F]
    (sqrt : F → F) (g_const softening : F) (target source : Body F) : Vec3 F :=
  let dx := source.pos.x - target.pos.x
  let dy := source.pos.y - target.pos.y
  let dz := source.pos.z - target.pos.z
  let distSq := dx * dx + dy * dy + dz * dz + softening
  let dist := sqrt distSq
  let f := (g_const * source.mass) / distSq
  ⟨f * dx / dist, f * dy / dist, f * dz / dist⟩

/-- Spec-side acceleration, from §4.3: the ascending-index sum of force-law
contributions from every body with a different id, evaluated on the
unmodified pre-step state. -/
def specAccel {F : Type} [LinearOrderedField F]
    (sqrt : F → F) (u : Universe F) (body : Body F) : Vec3 F :=
  let contributions := (u.bodies.filter (fun other => decide (body.id ≠ other.id))).map
    (forceLawSpec sqrt u.g_const u.softening body)
  ⟨(contributions.map Vec3.x).sum, (contributions.map Vec3.y).sum,
   (contributions.map Vec3.z).sum⟩

/-- Spec-side semi-implicit Euler update, from §4.3: `vel += acc * dt` then
`pos += vel * dt` using the already-updated velocity. -/
def semiImplicitEuler {F : Type} [LinearOrderedField F]
    (dt : F) (body : Body F) (acc : Vec3 F) : Body F :=
  let newVel : Vec3 F :=
    ⟨body.vel.x + acc.x * dt, body.vel.y + acc.y * dt, body.vel.z + acc.z * dt⟩
  { body with
    vel := newVel,
    pos := ⟨body.pos.x + newVel.x * dt, body.pos.y + newVel.y * dt,
            body.pos.z + newVel.z * dt⟩ }

/-- Spec-side two-phase step, from §4.3: phase 1 computes every acceleration
against the pre-step state; phase 2 applies the Euler update to every body. -/
def twoPhaseStep {F : Type} [LinearOrderedField F]
    (sqrt : F → F) (u : Universe F) (dt : F) : Universe F :=
  let accs := u.bodies.map (specAccel sqrt u)
  { u with bodies := List.zipWith (semiImplicitEuler dt) u.bodies accs }

section Helpers

variable {F : Type} [LinearOrderedField F]

theorem applyUpdate_id (dt : F) (b : Body F) (a : Vec3 F) :
    (applyUpdate dt b a).id = b.id := rfl

theorem applyUpdate_mass (dt : F) (b : Body F) (a : Vec3 F) :
    (applyUpdate dt b a).mass = b.mass := rfl

theorem zipWith_left_eq_map {α β γ : Type} (f : α → γ) :
    ∀ (l : List α) (l' : List β), l.length = l'.length →
      List.zipWith (fun a _ => f a) l l' = l.map f := by
  intro l
  induction l with
  | nil => intro l' _; simp
  | cons a t ih =>
    intro l' h
    cases l' with
    | nil => simp at h
    | cons b t' =>
      simp only [List.zipWith_cons_cons, List.map_cons]
      exact congrArg _ (ih t' (by simpa using h))

theorem step_serial_length (sqrt : F → F) (u : Universe F) (dt : F) :
    (u.step_serial sqrt dt).bodies.length = u.bodies.length := by
  simp [Universe.step_serial]

theorem step_parallel_length (sqrt : F → F) (u : Universe F) (dt : F) :
    (u.step_parallel sqrt dt).bodies.length = u.bodies.length := by
  simp [Universe.step_parallel]

theorem step_serial_ids (sqrt : F → F) (u : Universe F) (dt : F) :
    (u.step_serial sqrt dt).bodies.map Body.id = u.bodies.map Body.id := by
  simp only [Universe.step_serial, List.map_zipWith]
  exact zipWith_left_eq_map Body.id u.bodies _ (by simp)

theorem step_parallel_ids (sqrt : F → F) (u : Universe F) (dt : F) :
    (u.step_parallel sqrt dt).bodies.map Body.id = u.bodies.map Body.id := by
  simp only [Universe.step_parallel, List.map_zipWith]
  exact zipWith_left_eq_map Body.id u.bodies _ (by simp)

theorem step_serial_masses (sqrt : F → F) (u : Universe F) (dt : F) :
    (u.step_serial sqrt dt).bodies.map Body.mass = u.bodies.map Body.mass := by
  simp only [Universe.step_serial, List.map_zipWith]
  exact zipWith_left_eq_map Body.mass u.bodies _ (by simp)

theorem step_parallel_masses (sqrt : F → F) (u : Universe F) (dt : F) :
    (u.step_parallel sqrt dt).bodies.map Body.mass = u.bodies.map Body.mass := by
  simp only [Universe.step_parallel, List.map_zipWith]
  exact zipWith_left_eq_map Body.mass u.bodies _ (by simp)

theorem new_length (sqrt cos sin : F → F) (draw : Nat → Draw F) (count : Nat) :
    (Universe.new sqrt cos sin draw count).bodies.length = max 1 count := by
  simp only [Universe.new, List.length_cons, List.length_map, List.length_range']
  omega

theorem new_body_id (sqrt cos sin : F → F) (draw : Nat → Draw F) (count : Nat)
    (i : Nat) (h : i < (Universe.new sqrt cos sin draw count).bodies.length) :
    (Universe.new sqrt cos sin draw count).bodies[i].id = i := by
  match i with
  | 0 => rfl
  | j + 1 =>
    have h' : j < (count - 1) := by
      have := new_length sqrt cos sin draw count
      omega
    simp only [Universe.new, List.getElem_cons_succ, List.getElem_map,
      List.getElem_range']
    omega

theorem new_ids (sqrt cos sin : F → F) (draw : Nat → Draw F) (count : Nat) :
    (Universe.new sqrt cos sin draw count).bodies.map Body.id =
      List.range (max 1 count) := by
  apply List.ext_getElem
  · simp [new_length]
  · intro i h1 h2
    simp only [List.getElem_map, List.getElem_range]
    exact new_body_id sqrt cos sin draw count i (by simpa using h1)

theorem new_idIndexInv (sqrt cos sin : F → F) (draw : Nat → Draw F) (count : Nat) :
    idIndexInv (Universe.new sqrt cos sin draw count) := by
  unfold idIndexInv
  rw [new_ids, new_length]

theorem new_body_get (sqrt cos sin : F → F) (draw : Nat → Draw F) (count j : Nat)
    (h : j + 1 < (Universe.new sqrt cos sin draw count).bodies.length) :
    (Universe.new sqrt cos sin draw count).bodies[j + 1] =
      { id := j + 1,
        pos := ⟨(draw (j + 1)).dist * cos (draw (j + 1)).angle,
                (draw (j + 1)).dist * sin (draw (j + 1)).angle, 0⟩,
        vel := ⟨-(sqrt (1000000 / (draw (j + 1)).dist)) * sin (draw (j + 1)).angle,
                sqrt (1000000 / (draw (j + 1)).dist) * cos (draw (j + 1)).angle, 0⟩,
        mass := (draw (j + 1)).mass } := by
  have h' : j < count - 1 := by
    have := new_length sqrt cos sin draw count
    omega
  simp only [Universe.new, List.getElem_cons_succ, List.getElem_map,
    List.getElem_range']
  have hj : 1 + 1 * j = j + 1 := by omega
  rw [hj]

theorem serialAcc_single (sqrt : F → F) (u : Universe F) (b : Body F)
    (hb : u.bodies = [b]) :
    u.serialAcc sqrt b = ⟨0, 0, 0⟩ := by
  unfold Universe.serialAcc
  rw [hb]
  simp

theorem parallelAcc_single (sqrt : F → F) (u : Universe F) (b : Body F)
    (hb : u.bodies = [b]) (hid : b.id = 0) :
    u.parallelAcc sqrt ((u.bodies.map Body.pos).zip (u.bodies.map Body.mass)).enum b =
      ⟨0, 0, 0⟩ := by
  unfold Universe.parallelAcc
  rw [hb]
  simp [hid, List.enum_cons]

theorem parallelAcc_eq_serialAcc_aux (sqrt : F → F) (u : Universe F) (body : Body F) :
    ∀ (l : List (Body F)) (k : Nat) (acc : Vec3 F),
      l.map Body.id = List.range' k l.length →
      (List.enumFrom k (l.map (fun b => (b.pos, b.mass)))).foldl
        (fun acc entry =>
          let i := entry.1
          let pos := entry.2.1
          let m := entry.2.2
          if body.id ≠ i then
            let dx := pos.x - body.pos.x
            let dy := pos.y - body.pos.y
            let dz := pos.z - body.pos.z
            let dist_sq := dx * dx + dy * dy + dz * dz + u.softening
            let dist := sqrt dist_sq
            let f := (u.g_const * m) / dist_sq
            ⟨acc.x + f * dx / dist, acc.y + f * dy / dist, acc.z + f * dz / dist⟩
          else acc) acc =
      l.foldl
        (fun acc other =>
          if body.id ≠ other.id then
            let f := u.compute_force sqrt body other
            ⟨acc.x + f.x, acc.y + f.y, acc.z + f.z⟩
          else acc) acc := by
  intro l
  induction l with
  | nil => intro k acc _; rfl
  | cons a t ih =>
    intro k acc h
    simp only [List.map_cons, List.length_cons, List.range'_succ] at h
    have ha : a.id = k := (List.cons.injEq _ _ _ _ ▸ h).1
    have ht : t.map Body.id = List.range' (k + 1) t.length :=
      (List.cons.injEq _ _ _ _ ▸ h).2
    simp only [List.map_cons, List.enumFrom_cons, List.foldl_cons]
    rw [ih (k + 1) _ ht]
    congr 1
    simp only [ha, Universe.compute_force]

theorem serialAcc_eq_parallelAcc (sqrt : F → F) (u : Universe F) (body : Body F)
    (hinv : idIndexInv u) :
    u.parallelAcc sqrt ((u.bodies.map Body.pos).zip (u.bodies.map Body.mass)).enum body =
      u.serialAcc sqrt body := by
  unfold Universe.parallelAcc Universe.serialAcc
  rw [List.zip_map', List.enum_eq_enumFrom]
  exact parallelAcc_eq_serialAcc_aux sqrt u body u.bodies 0 ⟨0, 0, 0⟩
    (by rw [hinv, List.range_eq_range'])

theorem step_serial_eq_step_parallel (sqrt : F → F) (u : Universe F) (dt : F)
    (hinv : idIndexInv u) :
    u.step_serial sqrt dt = u.step_parallel sqrt dt := by
  simp only [Universe.step_serial, Universe.step_parallel]
  have : u.bodies.map (fun body =>
      u.parallelAcc sqrt ((u.bodies.map Body.pos).zip (u.bodies.map Body.mass)).enum body) =
      u.bodies.map (fun body => u.serialAcc sqrt body) :=
    List.map_congr_left (fun body _ => serialAcc_eq_parallelAcc sqrt u body hinv)
  rw [this]

end Helpers


section TwoPhase

variable {F : Type} [LinearOrderedField F]

theorem foldl_if_eq_sum_filter (f : Body F → Vec3 F) (p : Body F → Prop)
    [DecidablePred p] :
    ∀ (l : List (Body F)) (acc : Vec3 F),
      l.foldl (fun acc other =>
        if p other then
          ⟨acc.x + (f other).x, acc.y + (f other).y, acc.z + (f other).z⟩
        else acc) acc =
      ⟨acc.x + (((l.filter (fun o => decide (p o))).map f).map Vec3.x).sum,
       acc.y + (((l.filter (fun o => decide (p o))).map f).map Vec3.y).sum,
       acc.z + (((l.filter (fun o => decide (p o))).map f).map Vec3.z).sum⟩ := by
  intro l
  induction l with
  | nil => intro acc; simp
  | cons a t ih =>
    intro acc
    by_cases hp : p a
    · simp only [List.foldl_cons, if_pos hp, List.filter_cons, decide_eq_true hp,
        if_pos, List.map_cons, List.sum_cons, ih]
      simp only [Vec3.mk.injEq]
      exact ⟨by ring, by ring, by ring⟩
    · simp only [List.foldl_cons, if_neg hp, List.filter_cons,
        decide_eq_false hp, if_neg, ih]
      simp

theorem serialAcc_eq_specAccel (sqrt : F → F) (u : Universe F) (body : Body F) :
    u.serialAcc sqrt body = specAccel sqrt u body := by
  unfold Universe.serialAcc specAccel
  rw [foldl_if_eq_sum_filter (fun other => u.compute_force sqrt body other)
    (fun other => body.id ≠ other.id) u.bodies ⟨0, 0, 0⟩]
  simp only [zero_add]
  rfl

theorem step_serial_eq_twoPhaseStep (sqrt : F → F) (u : Universe F) (dt : F) :
    u.step_serial sqrt dt = twoPhaseStep sqrt u dt := by
  simp only [Universe.step_serial, twoPhaseStep]
  have h1 : u.bodies.map (fun body => u.serialAcc sqrt body) =
      u.bodies.map (specAccel sqrt u) :=
    List.map_congr_left (fun body _ => serialAcc_eq_specAccel sqrt u body)
  have h2 : applyUpdate (F := F) dt = semiImplicitEuler dt := rfl
  rw [h1, h2]

end TwoPhase

/-- C2: for every Universe and every dt, `step_serial` is the two-phase
semi-implicit Euler update: phase 1 computes each body's acceleration as the
ascending-index sum of force-law contributions from every other body on the
unmodified pre-step positions, and phase 2 sets `vel += acc*dt` then
`pos += vel*dt` with the updated velocity; no mutated state is read within
the step. -/
theorem C2_step_serial_two_phase {F : Type} [LinearOrderedField F]
    (sqrt : F → F) (u : Universe F) (dt : F) :
    u.step_serial sqrt dt = twoPhaseStep sqrt u dt :=
  step_serial_eq_twoPhaseStep sqrt u dt

/-- C3: for every Universe and every pair of distinct bodies,
`compute_force` returns exactly the spec force law `f * (dx,dy,dz) / dist`
with `dist_sq = dx² + dy² + dz² + softening` (softening added to the squared
distance, not the distance) and `f = g_const * source.mass / dist_sq`. -/
theorem C3_compute_force_formula {F : Type} [LinearOrderedField F]
    (sqrt : F → F) (u : Universe F) (target source : Body F)
    (hne : target.id ≠ source.id) :
    u.compute_force sqrt target source =
      forceLawSpec sqrt u.g_const u.softening target source := rfl

/-- Witness for C3 at a concrete pair of distinct rational bodies. -/
theorem C3_witness :
    (Body.mk (F := ℚ) 0 ⟨0, 0, 0⟩ ⟨0, 0, 0⟩ 1).id ≠
      (Body.mk (F := ℚ) 1 ⟨3, 4, 0⟩ ⟨0, 0, 0⟩ 2).id ∧
    (Universe.mk (F := ℚ) [] 1 (1 / 100000)).compute_force id
        (Body.mk (F := ℚ) 0 ⟨0, 0, 0⟩ ⟨0, 0, 0⟩ 1)
        (Body.mk (F := ℚ) 1 ⟨3, 4, 0⟩ ⟨0, 0, 0⟩ 2) =
      forceLawSpec id (Universe.mk (F := ℚ) [] 1 (1 / 100000)).g_const
        (Universe.mk (F := ℚ) [] 1 (1 / 100000)).softening
        (Body.mk (F := ℚ) 0 ⟨0, 0, 0⟩ ⟨0, 0, 0⟩ 1)
        (Body.mk (F := ℚ) 1 ⟨3, 4, 0⟩ ⟨0, 0, 0⟩ 2) :=
  ⟨by decide,
   C3_compute_force_formula id (Universe.mk (F := ℚ) [] 1 (1 / 100000))
     (Body.mk (F := ℚ) 0 ⟨0, 0, 0⟩ ⟨0, 0, 0⟩ 1)
     (Body.mk (F := ℚ) 1 ⟨3, 4, 0⟩ ⟨0, 0, 0⟩ 2) (by decide)⟩

/-- C4: for every count `n ≥ 1`, `Universe.new` returns exactly `n` bodies
with ids `0..n-1`, body 0 at the origin with zero velocity and mass
1,000,000, `g_const = 1` and `softening = 1e-5`. -/
theorem C4_new_shape {F : Type} [LinearOrderedField F]
    (sqrt cos sin : F → F) (draw : Nat → Draw F) (count : Nat) (hc : 1 ≤ count) :
    (Universe.new sqrt cos sin draw count).bodies.length = count ∧
    (Universe.new sqrt cos sin draw count).bodies.map Body.id = List.range count ∧
    (Universe.new sqrt cos sin draw count).bodies.head? =
      some { id := 0, pos := ⟨0, 0, 0⟩, vel := ⟨0, 0, 0⟩, mass := 1000000 } ∧
    (Universe.new sqrt cos sin draw count).g_const = 1 ∧
    (Universe.new sqrt cos sin draw count).softening = 1 / 100000 := by
  have hm : max 1 count = count := by omega
  exact ⟨by rw [new_length, hm], by rw [new_ids, hm], rfl, rfl, rfl⟩

/-- Witness for C4 at `count = 3` over the rationals. -/
theorem C4_witness :
    1 ≤ 3 ∧
    ((Universe.new (F := ℚ) id id id (fun _ => ⟨200, 0, 5⟩) 3).bodies.length = 3 ∧
     (Universe.new (F := ℚ) id id id (fun _ => ⟨200, 0, 5⟩) 3).bodies.map Body.id =
       List.range 3 ∧
     (Universe.new (F := ℚ) id id id (fun _ => ⟨200, 0, 5⟩) 3).bodies.head? =
       some { id := 0, pos := ⟨0, 0, 0⟩, vel := ⟨0, 0, 0⟩, mass := 1000000 } ∧
     (Universe.new (F := ℚ) id id id (fun _ => ⟨200, 0, 5⟩) 3).g_const = 1 ∧
     (Universe.new (F := ℚ) id id id (fun _ => ⟨200, 0, 5⟩) 3).softening = 1 / 100000) :=
  ⟨by decide, C4_new_shape id id id (fun _ => ⟨200, 0, 5⟩) 3 (by decide)⟩

/-- C6: a body never contributes force to itself: for a Universe containing
exactly one body (with the id 0 the initializer assigns), the acceleration
computed by the serial path and by the parallel path (against the very
snapshot `step_parallel` builds) is exactly zero. -/
theorem C6_no_self_force {F : Type} [LinearOrderedField F]
    (sqrt : F → F) (u : Universe F) (b : Body F)
    (hb : u.bodies = [b]) (hid : b.id = 0) :
    u.serialAcc sqrt b = ⟨0, 0, 0⟩ ∧
    u.parallelAcc sqrt ((u.bodies.map Body.pos).zip (u.bodies.map Body.mass)).enum b =
      ⟨0, 0, 0⟩ :=
  ⟨serialAcc_single sqrt u b hb, parallelAcc_single sqrt u b hb hid⟩

/-- Witness for C6 at a concrete one-body rational Universe. -/
theorem C6_witness :
    (Universe.mk (F := ℚ) [⟨0, ⟨1, 2, 3⟩, ⟨4, 5, 6⟩, 7⟩] 1 (1 / 100000)).bodies =
      [⟨0, ⟨1, 2, 3⟩, ⟨4, 5, 6⟩, 7⟩] ∧
    (Body.mk (F := ℚ) 0 ⟨1, 2, 3⟩ ⟨4, 5, 6⟩ 7).id = 0 ∧
    ((Universe.mk (F := ℚ) [⟨0, ⟨1, 2, 3⟩, ⟨4, 5, 6⟩, 7⟩] 1 (1 / 100000)).serialAcc id
        ⟨0, ⟨1, 2, 3⟩, ⟨4, 5, 6⟩, 7⟩ = ⟨0, 0, 0⟩ ∧
     (Universe.mk (F := ℚ) [⟨0, ⟨1, 2, 3⟩, ⟨4, 5, 6⟩, 7⟩] 1 (1 / 100000)).parallelAcc id
        (((Universe.mk (F := ℚ) [⟨0, ⟨1, 2, 3⟩, ⟨4, 5, 6⟩, 7⟩] 1 (1 / 100000)).bodies.map
            Body.pos).zip
          ((Universe.mk (F := ℚ) [⟨0, ⟨1, 2, 3⟩, ⟨4, 5, 6⟩, 7⟩] 1 (1 / 100000)).bodies.map
            Body.mass)).enum
        ⟨0, ⟨1, 2, 3⟩, ⟨4, 5, 6⟩, 7⟩ = ⟨0, 0, 0⟩) :=
  ⟨rfl, rfl,
   C6_no_self_force id (Universe.mk (F := ℚ) [⟨0, ⟨1, 2, 3⟩, ⟨4, 5, 6⟩, 7⟩] 1 (1 / 100000))
     ⟨0, ⟨1, 2, 3⟩, ⟨4, 5, 6⟩, 7⟩ rfl rfl⟩

/-- C7: index-id correspondence is an invariant: `Universe.new` produces
bodies with `id = index`, and both steps keep every body's id at its index
(no id changes, no reordering), so the invariant is preserved. -/
theorem C7_id_index_invariant {F : Type} [LinearOrderedField F]
    (sqrt cos sin : F → F) (draw : Nat → Draw F) (count : Nat)
    (u : Universe F) (dt : F) (hinv : idIndexInv u) :
    idIndexInv (Universe.new sqrt cos sin draw count) ∧
    (u.step_serial sqrt dt).bodies.map Body.id = u.bodies.map Body.id ∧
    (u.step_parallel sqrt dt).bodies.map Body.id = u.bodies.map Body.id ∧
    idIndexInv (u.step_serial sqrt dt) ∧
    idIndexInv (u.step_parallel sqrt dt) := by
  refine ⟨new_idIndexInv sqrt cos sin draw count, step_serial_ids sqrt u dt,
    step_parallel_ids sqrt u dt, ?_, ?_⟩
  · unfold idIndexInv at hinv ⊢
    rw [step_serial_ids, step_serial_length, hinv]
  · unfold idIndexInv at hinv ⊢
    rw [step_parallel_ids, step_parallel_length, hinv]

/-- Witness for C7 at a concrete two-body rational Universe. -/
theorem C7_witness :
    idIndexInv (Universe.mk (F := ℚ)
      [⟨0, ⟨0, 0, 0⟩, ⟨0, 0, 0⟩, 1⟩, ⟨1, ⟨1, 0, 0⟩, ⟨0, 0, 0⟩, 1⟩] 1 (1 / 100000)) ∧
    (idIndexInv (Universe.new (F := ℚ) id id id (fun _ => ⟨200, 0, 5⟩) 3) ∧
     ((Universe.mk (F := ℚ)
        [⟨0, ⟨0, 0, 0⟩, ⟨0, 0, 0⟩, 1⟩, ⟨1, ⟨1, 0, 0⟩, ⟨0, 0, 0⟩, 1⟩] 1
        (1 / 100000)).step_serial id 1).bodies.map Body.id =
       (Universe.mk (F := ℚ)
        [⟨0, ⟨0, 0, 0⟩, ⟨0, 0, 0⟩, 1⟩, ⟨1, ⟨1, 0, 0⟩, ⟨0, 0, 0⟩, 1⟩] 1
        (1 / 100000)).bodies.map Body.id ∧
     ((Universe.mk (F := ℚ)
        [⟨0, ⟨0, 0, 0⟩, ⟨0, 0, 0⟩, 1⟩, ⟨1, ⟨1, 0, 0⟩, ⟨0, 0, 0⟩, 1⟩] 1
        (1 / 100000)).step_parallel id 1).bodies.map Body.id =
       (Universe.mk (F := ℚ)
        [⟨0, ⟨0, 0, 0⟩, ⟨0, 0, 0⟩, 1⟩, ⟨1, ⟨1, 0, 0⟩, ⟨0, 0, 0⟩, 1⟩] 1
        (1 / 100000)).bodies.map Body.id ∧
     idIndexInv ((Universe.mk (F := ℚ)
        [⟨0, ⟨0, 0, 0⟩, ⟨0, 0, 0⟩, 1⟩, ⟨1, ⟨1, 0, 0⟩, ⟨0, 0, 0⟩, 1⟩] 1
        (1 / 100000)).step_serial id 1) ∧
     idIndexInv ((Universe.mk (F := ℚ)
        [⟨0, ⟨0, 0, 0⟩, ⟨0, 0, 0⟩, 1⟩, ⟨1, ⟨1, 0, 0⟩, ⟨0, 0, 0⟩, 1⟩] 1
        (1 / 100000)).step_parallel id 1)) :=
  ⟨by decide,
   C7_id_index_invariant id id id (fun _ => ⟨200, 0, 5⟩) 3
     (Universe.mk (F := ℚ)
       [⟨0, ⟨0, 0, 0⟩, ⟨0, 0, 0⟩, 1⟩, ⟨1, ⟨1, 0, 0⟩, ⟨0, 0, 0⟩, 1⟩] 1 (1 / 100000))
     1 (by decide)⟩

/-- C8: both steps leave the body count, every id, every mass, `g_const`
and `softening` unchanged; only positions and velocities may change. -/
theorem C8_frame {F : Type} [LinearOrderedField F]
    (sqrt : F → F) (u : Universe F) (dt : F) :
    (u.step_serial sqrt dt).bodies.length = u.bodies.length ∧
    (u.step_serial sqrt dt).bodies.map Body.id = u.bodies.map Body.id ∧
    (u.step_serial sqrt dt).bodies.map Body.mass = u.bodies.map Body.mass ∧
    (u.step_serial sqrt dt).g_const = u.g_const ∧
    (u.step_serial sqrt dt).softening = u.softening ∧
    (u.step_parallel sqrt dt).bodies.length = u.bodies.length ∧
    (u.step_parallel sqrt dt).bodies.map Body.id = u.bodies.map Body.id ∧
    (u.step_parallel sqrt dt).bodies.map Body.mass = u.bodies.map Body.mass ∧
    (u.step_parallel sqrt dt).g_const = u.g_const ∧
    (u.step_parallel sqrt dt).softening = u.softening :=
  ⟨step_serial_length sqrt u dt, step_serial_ids sqrt u dt,
   step_serial_masses sqrt u dt, rfl, rfl,
   step_parallel_length sqrt u dt, step_parallel_ids sqrt u dt,
   step_parallel_masses sqrt u dt, rfl, rfl⟩

/-- C10: `Universe.new` never returns an empty Universe: the central body is
pushed before the `1..count` loop, so every count yields at least one body,
and counts 0 and 1 both yield exactly one body. -/
theorem C10_new_never_empty {F : Type} [LinearOrderedField F]
    (sqrt cos sin : F → F) (draw : Nat → Draw F) :
    (∀ count : Nat, 1 ≤ (Universe.new sqrt cos sin draw count).bodies.length) ∧
    (Universe.new sqrt cos sin draw 0).bodies.length = 1 ∧
    (Universe.new sqrt cos sin draw 1).bodies.length = 1 := by
  refine ⟨fun count => ?_, ?_, ?_⟩ <;> rw [new_length] <;> omega

/-- C5: every orbiting body produced by `Universe.new` (index ≥ 1), given
draws with `dist ∈ [100,1000)`, `angle ∈ [0,2π)` and `mass ∈ [1,10)`, sits
at `(dist·cos angle, dist·sin angle, 0)` with tangential velocity
`(-v·sin angle, v·cos angle, 0)` for `v = sqrt (1000000 / dist)`, has its
drawn mass in `[1,10)`, and every body starts on the z = 0 plane. -/
theorem C5_orbiter_shape (draw : Nat → Draw ℝ) (count i : Nat)
    (hi : 1 ≤ i) (hic : i < count)
    (hdist : ∀ j, 100 ≤ (draw j).dist ∧ (draw j).dist < 1000)
    (hangle : ∀ j, 0 ≤ (draw j).angle ∧ (draw j).angle < 2 * Real.pi)
    (hmass : ∀ j, 1 ≤ (draw j).mass ∧ (draw j).mass < 10) :
    ((Universe.new Real.sqrt Real.cos Real.sin draw count).bodies.drop i).head? =
      some { id := i,
             pos := ⟨(draw i).dist * Real.cos (draw i).angle,
                     (draw i).dist * Real.sin (draw i).angle, 0⟩,
             vel := ⟨-(Real.sqrt (1000000 / (draw i).dist)) * Real.sin (draw i).angle,
                     Real.sqrt (1000000 / (draw i).dist) * Real.cos (draw i).angle, 0⟩,
             mass := (draw i).mass } ∧
    1 ≤ (draw i).mass ∧ (draw i).mass < 10 ∧
    ∀ b ∈ (Universe.new Real.sqrt Real.cos Real.sin draw count).bodies, b.pos.z = 0 := by
  have hlen : i < (Universe.new Real.sqrt Real.cos Real.sin draw count).bodies.length := by
    rw [new_length]; omega
  refine ⟨?_, (hmass i).1, (hmass i).2, ?_⟩
  · rw [List.head?_drop, List.getElem?_eq_getElem hlen]
    match i, hi with
    | j + 1, _ =>
      exact congrArg some (new_body_get Real.sqrt Real.cos Real.sin draw count j hlen)
  · intro b hb
    simp only [Universe.new, List.mem_cons, List.mem_map] at hb
    rcases hb with hb | ⟨k, _, hb⟩ <;> subst hb <;> rfl

/-- Witness for C5: two bodies, the orbiter drawn at distance 200, angle 0,
mass 5. -/
theorem C5_witness :
    1 ≤ 1 ∧ 1 < 2 ∧
    (∀ j : Nat, 100 ≤ ((fun _ : Nat => Draw.mk (F := ℝ) 200 0 5) j).dist ∧
      ((fun _ : Nat => Draw.mk (F := ℝ) 200 0 5) j).dist < 1000) ∧
    (∀ j : Nat, 0 ≤ ((fun _ : Nat => Draw.mk (F := ℝ) 200 0 5) j).angle ∧
      ((fun _ : Nat => Draw.mk (F := ℝ) 200 0 5) j).angle < 2 * Real.pi) ∧
    (∀ j : Nat, 1 ≤ ((fun _ : Nat => Draw.mk (F := ℝ) 200 0 5) j).mass ∧
      ((fun _ : Nat => Draw.mk (F := ℝ) 200 0 5) j).mass < 10) ∧
    (((Universe.new Real.sqrt Real.cos Real.sin
          (fun _ : Nat => Draw.mk (F := ℝ) 200 0 5) 2).bodies.drop 1).head? =
        some { id := 1,
               pos := ⟨(200 : ℝ) * Real.cos 0, (200 : ℝ) * Real.sin 0, 0⟩,
               vel := ⟨-(Real.sqrt (1000000 / 200)) * Real.sin 0,
                       Real.sqrt (1000000 / 200) * Real.cos 0, 0⟩,
               mass := 5 } ∧
      (1 : ℝ) ≤ 5 ∧ (5 : ℝ) < 10 ∧
      ∀ b ∈ (Universe.new Real.sqrt Real.cos Real.sin
          (fun _ : Nat => Draw.mk (F := ℝ) 200 0 5) 2).bodies, b.pos.z = 0) :=
  ⟨by norm_num, by norm_num, fun _ => by norm_num,
   fun _ => ⟨le_refl 0, by positivity⟩, fun _ => by norm_num,
   C5_orbiter_shape (fun _ => Draw.mk (F := ℝ) 200 0 5) 2 1 (by norm_num)
     (by norm_num) (fun _ => by norm_num) (fun _ => ⟨le_refl 0, by positivity⟩)
     (fun _ => by norm_num)⟩

/-- C9: with positive softening added to the squared distance,
`compute_force` never divides by zero (`dist_sq ≥ softening > 0` and
`dist > 0`) and each acceleration component is bounded in magnitude by
`g_const * mass / softening`, so coincident bodies give finite output. -/
theorem C9_softening_bounds (u : Universe ℝ) (t s : Body ℝ)
    (hsoft : 0 < u.softening) (hg : 0 ≤ u.g_const) (hm : 0 ≤ s.mass) :
    u.softening ≤
      (s.pos.x - t.pos.x) * (s.pos.x - t.pos.x) +
        (s.pos.y - t.pos.y) * (s.pos.y - t.pos.y) +
        (s.pos.z - t.pos.z) * (s.pos.z - t.pos.z) + u.softening ∧
    0 < Real.sqrt
      ((s.pos.x - t.pos.x) * (s.pos.x - t.pos.x) +
        (s.pos.y - t.pos.y) * (s.pos.y - t.pos.y) +
        (s.pos.z - t.pos.z) * (s.pos.z - t.pos.z) + u.softening) ∧
    |(u.compute_force Real.sqrt t s).x| ≤ u.g_const * s.mass / u.softening ∧
    |(u.compute_force Real.sqrt t s).y| ≤ u.g_const * s.mass / u.softening ∧
    |(u.compute_force Real.sqrt t s).z| ≤ u.g_const * s.mass / u.softening := by
  have hxx : 0 ≤ (s.pos.x - t.pos.x) * (s.pos.x - t.pos.x) := mul_self_nonneg _
  have hyy : 0 ≤ (s.pos.y - t.pos.y) * (s.pos.y - t.pos.y) := mul_self_nonneg _
  have hzz : 0 ≤ (s.pos.z - t.pos.z) * (s.pos.z - t.pos.z) := mul_self_nonneg _
  have hd2 : u.softening ≤
      (s.pos.x - t.pos.x) * (s.pos.x - t.pos.x) +
        (s.pos.y - t.pos.y) * (s.pos.y - t.pos.y) +
        (s.pos.z - t.pos.z) * (s.pos.z - t.pos.z) + u.softening := by linarith
  have hd2pos : 0 <
      (s.pos.x - t.pos.x) * (s.pos.x - t.pos.x) +
        (s.pos.y - t.pos.y) * (s.pos.y - t.pos.y) +
        (s.pos.z - t.pos.z) * (s.pos.z - t.pos.z) + u.softening :=
    lt_of_lt_of_le hsoft hd2
  have hdist : 0 < Real.sqrt
      ((s.pos.x - t.pos.x) * (s.pos.x - t.pos.x) +
        (s.pos.y - t.pos.y) * (s.pos.y - t.pos.y) +
        (s.pos.z - t.pos.z) * (s.pos.z - t.pos.z) + u.softening) :=
    Real.sqrt_pos.2 hd2pos
  refine ⟨hd2, hdist, ?_, ?_, ?_⟩ <;>
  · simp only [Universe.compute_force]
    set d2 := (s.pos.x - t.pos.x) * (s.pos.x - t.pos.x) +
        (s.pos.y - t.pos.y) * (s.pos.y - t.pos.y) +
        (s.pos.z - t.pos.z) * (s.pos.z - t.pos.z) + u.softening with hd2def
    have hf : 0 ≤ u.g_const * s.mass / d2 := by positivity
    rw [abs_div, abs_mul, abs_of_nonneg hf,
      abs_of_nonneg (Real.sqrt_nonneg d2), mul_div_assoc]
    have habs : ∀ w : ℝ, w * w ≤ d2 - u.softening + u.softening → |w| ≤ Real.sqrt d2 := by
      intro w hw
      exact Real.abs_le_sqrt (by rw [sq]; linarith)
    have hrat : ∀ w : ℝ, |w| ≤ Real.sqrt d2 →
        u.g_const * s.mass / d2 * (|w| / Real.sqrt d2) ≤
          u.g_const * s.mass / u.softening := by
      intro w hw
      have h1 : |w| / Real.sqrt d2 ≤ 1 := (div_le_one hdist).2 hw
      have h2 : u.g_const * s.mass / d2 * (|w| / Real.sqrt d2) ≤
          u.g_const * s.mass / d2 :=
        mul_le_of_le_one_right hf h1
      have h3 : u.g_const * s.mass / d2 ≤ u.g_const * s.mass / u.softening :=
        div_le_div_of_nonneg_left (by positivity) hsoft hd2
      linarith
    · exact hrat _ (habs _ (by linarith))

/-- Witness for C9 at two coincident real bodies in a Universe with the
standard constants. -/
theorem C9_witness :
    0 < (Universe.mk (F := ℝ) [] 1 (1 / 100000)).softening ∧
    0 ≤ (Universe.mk (F := ℝ) [] 1 (1 / 100000)).g_const ∧
    0 ≤ (Body.mk (F := ℝ) 1 ⟨5, 5, 5⟩ ⟨0, 0, 0⟩ 2).mass ∧
    ((Universe.mk (F := ℝ) [] 1 (1 / 100000)).softening ≤
      ((5 : ℝ) - 5) * ((5 : ℝ) - 5) + ((5 : ℝ) - 5) * ((5 : ℝ) - 5) +
        ((5 : ℝ) - 5) * ((5 : ℝ) - 5) + (Universe.mk (F := ℝ) [] 1 (1 / 100000)).softening ∧
     0 < Real.sqrt
      (((5 : ℝ) - 5) * ((5 : ℝ) - 5) + ((5 : ℝ) - 5) * ((5 : ℝ) - 5) +
        ((5 : ℝ) - 5) * ((5 : ℝ) - 5) + (Universe.mk (F := ℝ) [] 1 (1 / 100000)).softening) ∧
     |((Universe.mk (F := ℝ) [] 1 (1 / 100000)).compute_force Real.sqrt
        (Body.mk (F := ℝ) 0 ⟨5, 5, 5⟩ ⟨0, 0, 0⟩ 1)
        (Body.mk (F := ℝ) 1 ⟨5, 5, 5⟩ ⟨0, 0, 0⟩ 2)).x| ≤ 1 * 2 / (1 / 100000) ∧
     |((Universe.mk (F := ℝ) [] 1 (1 / 100000)).compute_force Real.sqrt
        (Body.mk (F := ℝ) 0 ⟨5, 5, 5⟩ ⟨0, 0, 0⟩ 1)
        (Body.mk (F := ℝ) 1 ⟨5, 5, 5⟩ ⟨0, 0, 0⟩ 2)).y| ≤ 1 * 2 / (1 / 100000) ∧
     |((Universe.mk (F := ℝ) [] 1 (1 / 100000)).compute_force Real.sqrt
        (Body.mk (F := ℝ) 0 ⟨5, 5, 5⟩ ⟨0, 0, 0⟩ 1)
        (Body.mk (F := ℝ) 1 ⟨5, 5, 5⟩ ⟨0, 0, 0⟩ 2)).z| ≤ 1 * 2 / (1 / 100000)) :=
  ⟨by norm_num, by norm_num, by norm_num,
   C9_softening_bounds (Universe.mk (F := ℝ) [] 1 (1 / 100000))
     (Body.mk (F := ℝ) 0 ⟨5, 5, 5⟩ ⟨0, 0, 0⟩ 1)
     (Body.mk (F := ℝ) 1 ⟨5, 5, 5⟩ ⟨0, 0, 0⟩ 2)
     (by norm_num) (by norm_num) (by norm_num)⟩

/-- C1 counterexample: the claim as stated quantifies over every initial
Universe, but `step_parallel` skips the self term by snapshot index while
`step_serial` skips it by id; a Universe whose ids do not match indices
(two bodies with ids swapped) makes one serial and one parallel step
disagree in position by far more than `1e-10`. -/
theorem C1_counterexample :
    ¬ (∀ (u : Universe ℝ) (dt : ℝ) (i : Nat)
        (h1 : i < (u.step_serial Real.sqrt dt).bodies.length)
        (h2 : i < (u.step_parallel Real.sqrt dt).bodies.length),
        |((u.step_serial Real.sqrt dt).bodies.get ⟨i, h1⟩).pos.x -
          ((u.step_parallel Real.sqrt dt).bodies.get ⟨i, h2⟩).pos.x| < 1 / 10 ^ 10 ∧
        |((u.step_serial Real.sqrt dt).bodies.get ⟨i, h1⟩).pos.y -
          ((u.step_parallel Real.sqrt dt).bodies.get ⟨i, h2⟩).pos.y| < 1 / 10 ^ 10 ∧
        |((u.step_serial Real.sqrt dt).bodies.get ⟨i, h1⟩).pos.z -
          ((u.step_parallel Real.sqrt dt).bodies.get ⟨i, h2⟩).pos.z| < 1 / 10 ^ 10) := by
  intro h
  have hlt := (h (Universe.mk (F := ℝ)
      [⟨1, ⟨0, 0, 0⟩, ⟨0, 0, 0⟩, 1⟩, ⟨0, ⟨1, 0, 0⟩, ⟨0, 0, 0⟩, 1⟩] 1 (1 / 100000)) 1 0
    (by simp [Universe.step_serial]) (by simp [Universe.step_parallel])).1
  simp [Universe.step_serial, Universe.serialAcc, Universe.compute_force, applyUpdate,
    Universe.step_parallel, Universe.parallelAcc, List.enum_cons, List.enumFrom_cons,
    List.enumFrom_nil, List.enum_nil] at hlt
  norm_num at hlt
  have hB : (1 : ℝ) / 10000000000 <
      100000 / 100001 / (Real.sqrt 100001 / Real.sqrt 100000) := by
    have hs1 : Real.sqrt 100001 ≤ 100001 := (Real.sqrt_le_left (by norm_num)).2 (by norm_num)
    have hs2 : (1 : ℝ) ≤ Real.sqrt 100000 := Real.one_le_sqrt.2 (by norm_num)
    have hs3 : Real.sqrt 100001 / Real.sqrt 100000 ≤ 100001 := by
      have := div_le_div₀ (by norm_num : (0 : ℝ) ≤ 100001) hs1 (by norm_num : (0 : ℝ) < 1) hs2
      simpa using this
    have hs4 : 0 < Real.sqrt 100001 / Real.sqrt 100000 := by positivity
    have hs5 : 100000 / 100001 / (100001 : ℝ) ≤
        100000 / 100001 / (Real.sqrt 100001 / Real.sqrt 100000) :=
      div_le_div_of_nonneg_left (by norm_num) hs4 hs3
    have hs6 : (1 : ℝ) / 10000000000 < 100000 / 100001 / (100001 : ℝ) := by norm_num
    linarith
  have hle := le_abs_self (100000 / 100001 / (Real.sqrt 100001 / Real.sqrt 100000) : ℝ)
  exact absurd hlt (not_lt.2 (lt_of_lt_of_le hB hle).le)

/-- C1 (amended): for any Universe satisfying the index-id invariant the
initializer establishes and both steps preserve, one serial and one parallel
step from the same state agree on every body's position to within `1e-10`
per coordinate (they are in fact equal, so the difference is zero). -/
theorem C1_tolerance_under_invariant {F : Type} [LinearOrderedField F]
    (sqrt : F → F) (u : Universe F) (dt : F) (hinv : idIndexInv u) (i : Nat)
    (h1 : i < (u.step_serial sqrt dt).bodies.length)
    (h2 : i < (u.step_parallel sqrt dt).bodies.length) :
    |((u.step_serial sqrt dt).bodies.get ⟨i, h1⟩).pos.x -
      ((u.step_parallel sqrt dt).bodies.get ⟨i, h2⟩).pos.x| < 1 / 10 ^ 10 ∧
    |((u.step_serial sqrt dt).bodies.get ⟨i, h1⟩).pos.y -
      ((u.step_parallel sqrt dt).bodies.get ⟨i, h2⟩).pos.y| < 1 / 10 ^ 10 ∧
    |((u.step_serial sqrt dt).bodies.get ⟨i, h1⟩).pos.z -
      ((u.step_parallel sqrt dt).bodies.get ⟨i, h2⟩).pos.z| < 1 / 10 ^ 10 := by
  have he := step_serial_eq_step_parallel sqrt u dt hinv
  have hget : (u.step_serial sqrt dt).bodies.get ⟨i, h1⟩ =
      (u.step_parallel sqrt dt).bodies.get ⟨i, h2⟩ :=
    List.get_of_eq (congrArg Universe.bodies he) ⟨i, h1⟩
  refine ⟨?_, ?_, ?_⟩ <;> rw [hget] <;> simp only [sub_self, abs_zero] <;> positivity

/-- Witness for the amended C1 at a concrete two-body rational Universe
with matching ids, with the identity as the abstract square root. -/
theorem C1_witness :
    idIndexInv (Universe.mk (F := ℚ)
      [⟨0, ⟨0, 0, 0⟩, ⟨0, 0, 0⟩, 2⟩, ⟨1, ⟨3, 0, 0⟩, ⟨0, 0, 0⟩, 2⟩] 1 (1 / 100000)) ∧
    (|(((Universe.mk (F := ℚ)
          [⟨0, ⟨0, 0, 0⟩, ⟨0, 0, 0⟩, 2⟩, ⟨1, ⟨3, 0, 0⟩, ⟨0, 0, 0⟩, 2⟩] 1
          (1 / 100000)).step_serial id 1).bodies.get ⟨0, by decide⟩).pos.x -
       (((Universe.mk (F := ℚ)
          [⟨0, ⟨0, 0, 0⟩, ⟨0, 0, 0⟩, 2⟩, ⟨1, ⟨3, 0, 0⟩, ⟨0, 0, 0⟩, 2⟩] 1
          (1 / 100000)).step_parallel id 1).bodies.get ⟨0, by decide⟩).pos.x| < 1 / 10 ^ 10 ∧
     |(((Universe.mk (F := ℚ)
          [⟨0, ⟨0, 0, 0⟩, ⟨0, 0, 0⟩, 2⟩, ⟨1, ⟨3, 0, 0⟩, ⟨0, 0, 0⟩, 2⟩] 1
          (1 / 100000)).step_serial id 1).bodies.get ⟨0, by decide⟩).pos.y -
       (((Universe.mk (F := ℚ)
          [⟨0, ⟨0, 0, 0⟩, ⟨0, 0, 0⟩, 2⟩, ⟨1, ⟨3, 0, 0⟩, ⟨0, 0, 0⟩, 2⟩] 1
          (1 / 100000)).step_parallel id 1).bodies.get ⟨0, by decide⟩).pos.y| < 1 / 10 ^ 10 ∧
     |(((Universe.mk (F := ℚ)
          [⟨0, ⟨0, 0, 0⟩, ⟨0, 0, 0⟩, 2⟩, ⟨1, ⟨3, 0, 0⟩, ⟨0, 0, 0⟩, 2⟩] 1
          (1 / 100000)).step_serial id 1).bodies.get ⟨0, by decide⟩).pos.z -
       (((Universe.mk (F := ℚ)
          [⟨0, ⟨0, 0, 0⟩, ⟨0, 0, 0⟩, 2⟩, ⟨1, ⟨3, 0, 0⟩, ⟨0, 0, 0⟩, 2⟩] 1
          (1 / 100000)).step_parallel id 1).bodies.get ⟨0, by decide⟩).pos.z| < 1 / 10 ^ 10) :=
  ⟨by decide,
   C1_tolerance_under_invariant id
     (Universe.mk (F := ℚ)
       [⟨0, ⟨0, 0, 0⟩, ⟨0, 0, 0⟩, 2⟩, ⟨1, ⟨3, 0, 0⟩, ⟨0, 0, 0⟩, 2⟩] 1 (1 / 100000))
     1 (by decide) 0 (by decide) (by decide)⟩
